import Mathlib

/-!
Shallow embedding of the Ricart–Agrawala mutual-exclusion peer from
`peer.py` (repository SistemasDistribuidos_Projeto2).

Each Python method that mutates the per-peer engine state is embedded as a
pure Lean function from a `Peer` record to a new `Peer` record; methods that
dispatch REPLY messages additionally return the list of `_send_reply`
invocations they make, in order, as `(target, permission)` pairs.  Network
transport, thread spawning and real-time sleeps are not part of the local
state transformation and are omitted; the membership filter performed inside
`_send_reply` is modelled separately by `sendReplyNet`.

Python's `float('inf')` sentinel for `request_timestamp` is modelled as
`(none : Option Nat)` (written `tsInf`), finite stamps as `some n`;
message timestamps are always finite naturals.  Wall-clock instants (only
stored, never compared in the embedded claims) are modelled as naturals.
String comparison is Python's lexicographic code-point order, which is
exactly `List.lt` on the strings' character lists.
-/

namespace RAPeer

/-- The static peer universe `PEER_NAMES` from `peer.py`. -/
def PEER_NAMES : List String := ["PeerA", "PeerB", "PeerC", "PeerD"]

/-- The `PeerState` enum from `peer.py`. -/
inductive PeerState where
  | RELEASED
  | WANTED
  | HELD
deriving DecidableEq, Repr

/-- Timestamps as stored in `request_timestamp`: a natural or the `+∞`
sentinel (`float('inf')` in the Python source), modelled as `none`. -/
abbrev TS := Option Nat

/-- The `+∞` sentinel `float('inf')`. -/
def tsInf : TS := none

/-- Python `<` between two timestamp values (naturals or `+∞`):
`+∞` is strictly above every natural and not below anything. -/
def tsLt : TS → TS → Bool
  | some a, some b => decide (a < b)
  | some _, none => true
  | none, _ => false

/-- Python string `<`: lexicographic order on the code points, i.e.
`List.lt` on the character lists (definitionally `String.lt`). -/
def strLt (a b : String) : Prop := a.data < b.data

instance : DecidableRel strLt := fun a b =>
  inferInstanceAs (Decidable (a.data < b.data))

/-- Python tuple `<` on the priority pairs `(request_timestamp, name)`
appearing in `handle_request`: lexicographic strict order. -/
def priLt (a b : TS × String) : Bool :=
  tsLt a.1 b.1 || (decide (a.1 = b.1) && decide (strLt a.2 b.2))

/-- The ascending lexicographic order on deferred-queue entries
`(timestamp, name)` into which Python's `list.sort()` puts the queue. -/
def tupLeP (a b : Nat × String) : Prop :=
  a.1 < b.1 ∨ (a.1 = b.1 ∧ ¬ strLt b.2 a.2)

instance : DecidableRel tupLeP := fun a b =>
  inferInstanceAs (Decidable (a.1 < b.1 ∨ (a.1 = b.1 ∧ ¬ strLt b.2 a.2)))

/-- `strLt` agrees with the canonical strict order on `String`. -/
theorem strLt_iff (a b : String) : strLt a b ↔ a < b :=
  Iff.symm String.lt_iff_toList_lt

/-- Python string `<=`, as left by sorting: `a` may precede `b` iff
`¬ (b < a)`. -/
def strLe (a b : String) : Prop := ¬ strLt b a

instance : DecidableRel strLe := fun a b =>
  inferInstanceAs (Decidable (¬ strLt b a))

instance : IsTotal (Nat × String) tupLeP :=
  ⟨fun a b => by
    rcases lt_trichotomy a.1 b.1 with h | h | h
    · exact Or.inl (Or.inl h)
    · by_cases hs : strLt b.2 a.2
      · exact Or.inr (Or.inr ⟨h.symm,
          fun hc => lt_asymm ((strLt_iff _ _).1 hs) ((strLt_iff _ _).1 hc)⟩)
      · exact Or.inl (Or.inr ⟨h, hs⟩)
    · exact Or.inr (Or.inl h)⟩

instance : IsTrans (Nat × String) tupLeP :=
  ⟨fun a b c hab hbc => by
    rcases hab with h1 | ⟨h1, h1s⟩ <;> rcases hbc with h2 | ⟨h2, h2s⟩
    · exact Or.inl (h1.trans h2)
    · exact Or.inl (h2 ▸ h1)
    · exact Or.inl (h1 ▸ h2)
    · refine Or.inr ⟨h1.trans h2, fun hca => ?_⟩
      rw [strLt_iff] at hca h1s h2s
      exact h2s (lt_of_lt_of_le hca (le_of_not_lt h1s))⟩

/-- The per-peer engine state: the fields initialised in `Peer.__init__`
that the mutual-exclusion engine reads or writes.  `active_peers` (a Python
set) is a `Finset`; `last_contact` (a Python dict read back with
`.get(peer, 0)`) is a total function defaulting to 0. -/
structure Peer where
  name : String
  allPeerNames : List String
  releasingAccess : Bool
  state : PeerState
  clock : Nat
  requestTimestamp : TS
  deferredRequests : List (Nat × String)
  replyCount : Nat
  activePeers : Finset String
  lastContact : String → Nat

/-- `Peer.__init__(name, all_peer_names)` at start instant `t0`: the other
peers' names are filtered and sorted, the engine starts RELEASED with
clock 0, `request_timestamp = +∞`, an empty deferred queue, zero replies,
all other peers active, and `last_contact` primed to the start instant. -/
def Peer.init (name : String) (all_peer_names : List String) (t0 : Nat) : Peer :=
  let others :=
    List.insertionSort strLe (all_peer_names.filter (fun q => q ≠ name))
  { name := name
    allPeerNames := others
    releasingAccess := false
    state := PeerState.RELEASED
    clock := 0
    requestTimestamp := tsInf
    deferredRequests := []
    replyCount := 0
    activePeers := others.toFinset
    lastContact := fun q => if q ∈ others then t0 else 0 }

/-- `_update_clock(received_clock)`: Lamport update
`clock := max(clock, received) + 1`. -/
def updateClock (p : Peer) (received_clock : Nat) : Peer :=
  { p with clock := max p.clock received_clock + 1 }

/-- `heartbeat(peer_name)` received at wall-clock instant `now`: refresh
`last_contact[peer_name]` and (re-)insert the sender into `active_peers`.
No validation against `all_peer_names` is performed. -/
def heartbeat (p : Peer) (peer_name : String) (now : Nat) : Peer :=
  { p with
    lastContact := fun q => if q = peer_name then now else p.lastContact q
    activePeers := insert peer_name p.activePeers }

/-- `_remove_failed_peer(peer_name)` (the branch where the 0.1 s lock
acquire succeeds; a failed acquire leaves the state untouched, i.e. is no
step at all): drop the peer from `active_peers` and, when WANTED, credit
`reply_count`. -/
def removeFailedPeer (p : Peer) (peer_name : String) : Peer :=
  if peer_name ∈ p.activePeers then
    let p1 := { p with activePeers := p.activePeers.erase peer_name }
    if p1.state = PeerState.WANTED then
      { p1 with replyCount := p1.replyCount + 1 }
    else p1
  else p

/-- `request_access(duration)`: under the lock, refuse unless RELEASED;
otherwise Lamport-tick with `received = 0`, stamp the request, go WANTED
with the self-vote.  The REQUEST fan-out and the waiter thread only
dispatch messages / sleep and do not touch the engine state.  `duration`
only bounds the later CS occupancy in real time. -/
def requestAccess (p : Peer) (duration : Nat) : Bool × Peer :=
  if p.state ≠ PeerState.RELEASED then (false, p)
  else
    let p1 := updateClock p 0
    (true,
      { p1 with
        requestTimestamp := some p1.clock
        state := PeerState.WANTED
        replyCount := 1 })

/-- `handle_request(requester_name, requester_timestamp)`: Lamport update
against the incoming stamp, then decide HELD → defer, WANTED → compare
priorities (requester strictly smaller wins), RELEASED → grant.  Deferring
first sends a `permission = false` REPLY, then appends the entry to
`deferred_requests` and re-sorts it; granting sends a `permission = true`
REPLY.  The returned list holds the `_send_reply` invocations made. -/
def handleRequest (p : Peer) (requester_name : String) (requester_timestamp : Nat) :
    Peer × List (String × Bool) :=
  let p1 := updateClock p requester_timestamp
  let myPriority : TS × String := (p1.requestTimestamp, p1.name)
  let reply_immediately : Bool :=
    match p1.state with
    | PeerState.HELD => false
    | PeerState.WANTED =>
        priLt (some requester_timestamp, requester_name) myPriority
    | PeerState.RELEASED => true
  if reply_immediately then
    (p1, [(requester_name, true)])
  else
    ({ p1 with
        deferredRequests :=
          List.insertionSort tupLeP
            (p1.deferredRequests ++ [(requester_timestamp, requester_name)]) },
      [(requester_name, false)])

/-- The membership filter performed inside `_send_reply`: an invocation
whose target is not in `active_peers` returns without dispatching. -/
def sendReplyNet (p : Peer) (calls : List (String × Bool)) : List (String × Bool) :=
  calls.filter (fun c => decide (c.1 ∈ p.activePeers))

/-- `receive_reply(sender_name, permission)`: credit `reply_count` only
when WANTED and `permission` is true; otherwise do nothing. -/
def receiveReply (p : Peer) (sender_name : String) (permission : Bool) : Peer :=
  if p.state = PeerState.WANTED ∧ permission = true then
    { p with replyCount := p.replyCount + 1 }
  else p

/-- The locked prologue of `_enter_critical_section(duration)`:
`state := HELD`, `reply_count := 0`, `releasing_access := false`.  The
subsequent occupancy loop only sleeps and flips `releasing_access`, and
always falls through to `_exit_critical_section`. -/
def enterCriticalSection (p : Peer) : Peer :=
  { p with
    state := PeerState.HELD
    replyCount := 0
    releasingAccess := false }

/-- `_exit_critical_section()`: clear `releasing_access`, go RELEASED with
`request_timestamp := +∞`, snapshot and clear `deferred_requests`, then
invoke `_send_reply(name, True)` for each snapshotted entry in list
order. -/
def exitCriticalSection (p : Peer) : Peer × List (String × Bool) :=
  ({ p with
      releasingAccess := false
      state := PeerState.RELEASED
      requestTimestamp := tsInf
      deferredRequests := [] },
    p.deferredRequests.map (fun e => (e.2, true)))

/-- The abort branch of `_wait_and_enter_thread` (still WANTED but short of
quorum after the re-check): reset to RELEASED, `request_timestamp := +∞`,
`reply_count := 0`. -/
def waiterAbort (p : Peer) : Peer :=
  { p with
    state := PeerState.RELEASED
    requestTimestamp := tsInf
    replyCount := 0 }


/-! Helper lemmas: which fields each operation touches. -/

theorem requestAccess_not_released {p : Peer} (d : Nat)
    (h : p.state ≠ PeerState.RELEASED) : requestAccess p d = (false, p) := by
  simp [requestAccess, h]

theorem requestAccess_released {p : Peer} (d : Nat)
    (h : p.state = PeerState.RELEASED) :
    requestAccess p d =
      (true,
        { p with
          clock := max p.clock 0 + 1
          requestTimestamp := some (max p.clock 0 + 1)
          state := PeerState.WANTED
          replyCount := 1 }) := by
  simp [requestAccess, h, updateClock]

theorem handleRequest_fst_state (p : Peer) (r : String) (t : Nat) :
    (handleRequest p r t).1.state = p.state := by
  simp only [handleRequest]
  split <;> rfl

theorem handleRequest_fst_requestTimestamp (p : Peer) (r : String) (t : Nat) :
    (handleRequest p r t).1.requestTimestamp = p.requestTimestamp := by
  simp only [handleRequest]
  split <;> rfl

theorem handleRequest_fst_replyCount (p : Peer) (r : String) (t : Nat) :
    (handleRequest p r t).1.replyCount = p.replyCount := by
  simp only [handleRequest]
  split <;> rfl

theorem handleRequest_fst_activePeers (p : Peer) (r : String) (t : Nat) :
    (handleRequest p r t).1.activePeers = p.activePeers := by
  simp only [handleRequest]
  split <;> rfl

theorem handleRequest_fst_clock (p : Peer) (r : String) (t : Nat) :
    (handleRequest p r t).1.clock = max p.clock t + 1 := by
  simp only [handleRequest]
  split <;> rfl

theorem receiveReply_state (p : Peer) (s : String) (b : Bool) :
    (receiveReply p s b).state = p.state := by
  simp only [receiveReply]
  split <;> rfl

theorem receiveReply_requestTimestamp (p : Peer) (s : String) (b : Bool) :
    (receiveReply p s b).requestTimestamp = p.requestTimestamp := by
  simp only [receiveReply]
  split <;> rfl

theorem receiveReply_activePeers (p : Peer) (s : String) (b : Bool) :
    (receiveReply p s b).activePeers = p.activePeers := by
  simp only [receiveReply]
  split <;> rfl

theorem receiveReply_deferredRequests (p : Peer) (s : String) (b : Bool) :
    (receiveReply p s b).deferredRequests = p.deferredRequests := by
  simp only [receiveReply]
  split <;> rfl

theorem receiveReply_clock (p : Peer) (s : String) (b : Bool) :
    (receiveReply p s b).clock = p.clock := by
  simp only [receiveReply]
  split <;> rfl

theorem removeFailedPeer_state (p : Peer) (n : String) :
    (removeFailedPeer p n).state = p.state := by
  simp only [removeFailedPeer]
  split
  · split <;> rfl
  · rfl

theorem removeFailedPeer_requestTimestamp (p : Peer) (n : String) :
    (removeFailedPeer p n).requestTimestamp = p.requestTimestamp := by
  simp only [removeFailedPeer]
  split
  · split <;> rfl
  · rfl

theorem removeFailedPeer_deferredRequests (p : Peer) (n : String) :
    (removeFailedPeer p n).deferredRequests = p.deferredRequests := by
  simp only [removeFailedPeer]
  split
  · split <;> rfl
  · rfl

/-- The states of a single peer reachable through the engine operations,
with each operation guarded exactly as its call site in `peer.py` guards
it: `_enter_critical_section` is invoked by the waiter only after observing
`reply_count >= len(active_peers) + 1` while WANTED, the waiter abort
branch only while WANTED and short of quorum, and `_exit_critical_section`
only from HELD (it runs in the `finally` of `_enter_critical_section`). -/
inductive Reach : Peer → Prop where
  | init (name : String) (t0 : Nat) : Reach (Peer.init name PEER_NAMES t0)
  | request {p : Peer} (d : Nat) : Reach p → Reach (requestAccess p d).2
  | handle {p : Peer} (r : String) (t : Nat) : Reach p → Reach (handleRequest p r t).1
  | reply {p : Peer} (s : String) (b : Bool) : Reach p → Reach (receiveReply p s b)
  | remove {p : Peer} (n : String) : Reach p → Reach (removeFailedPeer p n)
  | beat {p : Peer} (n : String) (now : Nat) : Reach p → Reach (heartbeat p n now)
  | enter {p : Peer} : Reach p → p.state = PeerState.WANTED →
      p.activePeers.card + 1 ≤ p.replyCount → Reach (enterCriticalSection p)
  | exit {p : Peer} : Reach p → p.state = PeerState.HELD →
      Reach (exitCriticalSection p).1
  | abort {p : Peer} : Reach p → p.state = PeerState.WANTED →
      p.replyCount < p.activePeers.card + 1 → Reach (waiterAbort p)

/-! Concrete execution states used to instantiate the theorems. -/

/-- `PeerA` freshly initialised over the static universe. -/
def peerA : Peer := Peer.init "PeerA" PEER_NAMES 0

/-- `peerA` after `request_access(10)` succeeded (state WANTED, T = 1). -/
def peerAWanted : Peer := (requestAccess peerA 10).2

/-- `peerAWanted` after REPLYs from PeerB, PeerC and PeerD arrived. -/
def peerAQuorum : Peer :=
  receiveReply (receiveReply (receiveReply peerAWanted "PeerB" true) "PeerC" true) "PeerD" true

/-- `peerAQuorum` after the waiter entered the critical section. -/
def peerAHeld : Peer := enterCriticalSection peerAQuorum

/-- `peerAHeld` after deferring REQUEST(PeerB, 5) and then REQUEST(PeerC, 3):
the deferred queue holds [(3, PeerC), (5, PeerB)]. -/
def peerAHeldDeferred : Peer :=
  (handleRequest (handleRequest peerAHeld "PeerB" 5).1 "PeerC" 3).1

/-- `peerAWanted` after the failure detector removed PeerB (crediting the
counter) and REPLYs from PeerC and PeerD then arrived: `reply_count = 4`
with only two peers still active. -/
def peerAOverCount : Peer :=
  receiveReply (receiveReply (removeFailedPeer peerAWanted "PeerB") "PeerC" true) "PeerD" true

theorem reach_peerAWanted : Reach peerAWanted :=
  Reach.request 10 (Reach.init "PeerA" 0)

theorem reach_peerAQuorum : Reach peerAQuorum :=
  Reach.reply "PeerD" true (Reach.reply "PeerC" true
    (Reach.reply "PeerB" true reach_peerAWanted))

theorem reach_peerAHeld : Reach peerAHeld :=
  Reach.enter reach_peerAQuorum (by decide) (by decide)

theorem reach_peerAHeldDeferred : Reach peerAHeldDeferred :=
  Reach.handle "PeerC" 3 (Reach.handle "PeerB" 5 reach_peerAHeld)

theorem reach_peerAOverCount : Reach peerAOverCount :=
  Reach.reply "PeerD" true (Reach.reply "PeerC" true
    (Reach.remove "PeerB" reach_peerAWanted))

theorem requestAccess_snd_deferredRequests (p : Peer) (d : Nat) :
    (requestAccess p d).2.deferredRequests = p.deferredRequests := by
  simp only [requestAccess]
  split <;> rfl

theorem handleRequest_fst_deferredRequests_cases (p : Peer) (r : String) (t : Nat) :
    (handleRequest p r t).1.deferredRequests = p.deferredRequests ∨
      (handleRequest p r t).1.deferredRequests =
        List.insertionSort tupLeP (p.deferredRequests ++ [(t, r)]) := by
  simp only [handleRequest]
  split
  · exact Or.inl rfl
  · exact Or.inr rfl

/-- Invariant: the deferred queue of every reachable state is sorted
ascending by `(timestamp, name)`. -/
theorem reach_deferred_sorted {p : Peer} (h : Reach p) :
    List.Sorted tupLeP p.deferredRequests := by
  induction h with
  | init name t0 => exact List.sorted_nil
  | request d _ ih => rw [requestAccess_snd_deferredRequests]; exact ih
  | handle r t _ ih =>
      rcases handleRequest_fst_deferredRequests_cases _ r t with hc | hc
      · rw [hc]; exact ih
      · rw [hc]; exact List.sorted_insertionSort tupLeP _
  | reply s b _ ih => rw [receiveReply_deferredRequests]; exact ih
  | remove n _ ih => rw [removeFailedPeer_deferredRequests]; exact ih
  | beat n now _ ih => exact ih
  | enter _ _ _ ih => exact ih
  | exit _ _ _ => exact List.sorted_nil
  | abort _ _ _ ih => exact ih

/-- `handle_request` written as a single conditional on the pre-state. -/
theorem handleRequest_eq (p : Peer) (r : String) (t : Nat) :
    handleRequest p r t =
      if (match p.state with
          | PeerState.HELD => false
          | PeerState.WANTED => priLt (some t, r) (p.requestTimestamp, p.name)
          | PeerState.RELEASED => true) = true
      then (updateClock p t, [(r, true)])
      else ({ updateClock p t with
                deferredRequests :=
                  List.insertionSort tupLeP (p.deferredRequests ++ [(t, r)]) },
            [(r, false)]) := rfl

/-- The priority comparison as a proposition: the requester pair is
lexicographically strictly smaller than the local pair. -/
theorem priLt_iff (a b : TS × String) :
    priLt a b = true ↔ (tsLt a.1 b.1 = true ∨ (a.1 = b.1 ∧ strLt a.2 b.2)) := by
  simp [priLt, Bool.or_eq_true, Bool.and_eq_true, decide_eq_true_iff]

/-- Claim C2: `handle_request(requester_name, requester_timestamp)` defers
when the receiver is HELD; when WANTED it grants immediately exactly when
the requester pair `(requester_timestamp, requester_name)` is
lexicographically strictly smaller than the local `(request_timestamp,
name)` pair, deferring otherwise; when RELEASED it grants immediately.
Every deferred request is appended to `deferred_requests` (a permutation
of the old queue plus the new entry) and the queue is re-sorted into
ascending `(timestamp, name)` order. -/
theorem c2_handle_request (p : Peer) (r : String) (t : Nat) :
    (p.state = PeerState.HELD →
      (handleRequest p r t).2 = [(r, false)] ∧
      ((handleRequest p r t).1.deferredRequests).Perm (p.deferredRequests ++ [(t, r)]) ∧
      List.Sorted tupLeP (handleRequest p r t).1.deferredRequests) ∧
    (p.state = PeerState.WANTED →
      ((tsLt (some t) p.requestTimestamp = true ∨
          ((some t : TS) = p.requestTimestamp ∧ strLt r p.name)) →
        (handleRequest p r t).2 = [(r, true)] ∧
        (handleRequest p r t).1.deferredRequests = p.deferredRequests) ∧
      (¬ (tsLt (some t) p.requestTimestamp = true ∨
          ((some t : TS) = p.requestTimestamp ∧ strLt r p.name)) →
        (handleRequest p r t).2 = [(r, false)] ∧
        ((handleRequest p r t).1.deferredRequests).Perm (p.deferredRequests ++ [(t, r)]) ∧
        List.Sorted tupLeP (handleRequest p r t).1.deferredRequests)) ∧
    (p.state = PeerState.RELEASED →
      (handleRequest p r t).2 = [(r, true)] ∧
      (handleRequest p r t).1.deferredRequests = p.deferredRequests) := by
  refine ⟨fun hs => ?_, fun hs => ⟨fun hw => ?_, fun hw => ?_⟩, fun hs => ?_⟩
  · rw [handleRequest_eq, hs]
    exact ⟨rfl, List.perm_insertionSort tupLeP _,
      List.sorted_insertionSort tupLeP _⟩
  · have hb : priLt (some t, r) (p.requestTimestamp, p.name) = true :=
      (priLt_iff _ _).mpr hw
    rw [handleRequest_eq, hs, hb, if_pos rfl]
    exact ⟨rfl, rfl⟩
  · have hb : priLt (some t, r) (p.requestTimestamp, p.name) = false :=
      Bool.eq_false_iff.mpr (fun h => hw ((priLt_iff _ _).mp h))
    rw [handleRequest_eq, hs, hb, if_neg Bool.false_ne_true]
    exact ⟨rfl, List.perm_insertionSort tupLeP _,
      List.sorted_insertionSort tupLeP _⟩
  · rw [handleRequest_eq, hs]
    exact ⟨rfl, rfl⟩

/-- Witness for C2 at the concrete HELD state `peerAHeld` receiving
REQUEST(PeerB, 5). -/
theorem c2_handle_request_witness :
    (handleRequest peerAHeld "PeerB" 5).2 = [("PeerB", false)] ∧
    ((handleRequest peerAHeld "PeerB" 5).1.deferredRequests).Perm
      (peerAHeld.deferredRequests ++ [(5, "PeerB")]) ∧
    List.Sorted tupLeP (handleRequest peerAHeld "PeerB" 5).1.deferredRequests :=
  (c2_handle_request peerAHeld "PeerB" 5).1 (by decide)

/-- Claim C3: `request_access(duration)` returns false and leaves the whole
engine state unchanged unless RELEASED; from RELEASED it bumps the clock by
exactly 1, stamps `request_timestamp` with the new clock, goes WANTED with
the self-vote `reply_count = 1`, and returns true. -/
theorem c3_request_access (p : Peer) (d : Nat) :
    (p.state ≠ PeerState.RELEASED → requestAccess p d = (false, p)) ∧
    (p.state = PeerState.RELEASED →
      (requestAccess p d).1 = true ∧
      (requestAccess p d).2.clock = p.clock + 1 ∧
      (requestAccess p d).2.requestTimestamp = some (p.clock + 1) ∧
      (requestAccess p d).2.state = PeerState.WANTED ∧
      (requestAccess p d).2.replyCount = 1) := by
  refine ⟨fun h => requestAccess_not_released d h, fun h => ?_⟩
  rw [requestAccess_released d h]
  simp

/-- Witness for C3: refused from WANTED, granted from the initial state. -/
theorem c3_request_access_witness :
    requestAccess peerAWanted 10 = (false, peerAWanted) ∧
    ((requestAccess peerA 10).1 = true ∧
     (requestAccess peerA 10).2.clock = peerA.clock + 1 ∧
     (requestAccess peerA 10).2.requestTimestamp = some (peerA.clock + 1) ∧
     (requestAccess peerA 10).2.state = PeerState.WANTED ∧
     (requestAccess peerA 10).2.replyCount = 1) :=
  ⟨(c3_request_access peerAWanted 10).1 (by decide),
   (c3_request_access peerA 10).2 (by decide)⟩

/-- Claim C6: `receive_reply(sender_name, permission)` increments
`reply_count` by exactly 1 when WANTED with `permission = true`, and in
every other case changes no state at all. -/
theorem c6_receive_reply (p : Peer) (s : String) (b : Bool) :
    (p.state = PeerState.WANTED ∧ b = true →
      receiveReply p s b = { p with replyCount := p.replyCount + 1 }) ∧
    (¬ (p.state = PeerState.WANTED ∧ b = true) → receiveReply p s b = p) := by
  constructor
  · intro h
    unfold receiveReply
    rw [if_pos h]
  · intro h
    unfold receiveReply
    rw [if_neg h]

/-- Witness for C6: counted while WANTED, ignored while RELEASED (late
REPLY), ignored when `permission = false`. -/
theorem c6_receive_reply_witness :
    receiveReply peerAWanted "PeerB" true =
      { peerAWanted with replyCount := peerAWanted.replyCount + 1 } ∧
    receiveReply peerA "PeerB" true = peerA ∧
    receiveReply peerAWanted "PeerB" false = peerAWanted :=
  ⟨(c6_receive_reply peerAWanted "PeerB" true).1 (by decide),
   (c6_receive_reply peerA "PeerB" true).2 (by decide),
   (c6_receive_reply peerAWanted "PeerB" false).2 (by decide)⟩

/-- Claim C10: `heartbeat(sender_name)` stamps `last_contact[sender_name]`
with the current time and inserts the sender into `active_peers` whenever
absent, with no validation against `all_peer_names`, so `active_peers` can
come to contain names outside the static universe (witness: "Mallory"). -/
theorem c10_heartbeat (p : Peer) (n : String) (now : Nat) :
    (heartbeat p n now).lastContact n = now ∧
    (heartbeat p n now).activePeers = insert n p.activePeers ∧
    n ∈ (heartbeat p n now).activePeers ∧
    ("Mallory" ∉ peerA.allPeerNames ∧ "Mallory" ∉ PEER_NAMES ∧
      "Mallory" ∈ (heartbeat peerA "Mallory" 0).activePeers) := by
  refine ⟨by simp [heartbeat], rfl, ?_, by decide, by decide, by decide⟩
  exact Finset.mem_insert_self n p.activePeers

/-- Claim C4 counterexample: `_enter_critical_section` does not reset
`request_timestamp`, so the reachable state `peerAHeld` is HELD with the
finite stamp `1`, contradicting "whenever the state is RELEASED or HELD,
`request_timestamp` equals the `+∞` sentinel" (and hence the claimed
`WANTED ↔ finite` equivalence). -/
theorem c4_counterexample :
    Reach peerAHeld ∧ peerAHeld.state = PeerState.HELD ∧
      peerAHeld.requestTimestamp = some 1 ∧ peerAHeld.requestTimestamp ≠ tsInf :=
  ⟨reach_peerAHeld, by decide, by decide, by decide⟩

/-- Claim C4 (amended): at every reachable quiescent point,
`request_timestamp` is finite (below the `+∞` sentinel) iff the state is
WANTED or HELD; in particular `request_timestamp = +∞` exactly in state
RELEASED. -/
theorem c4_state_iff_finite_timestamp {p : Peer} (h : Reach p) :
    (p.state = PeerState.WANTED ∨ p.state = PeerState.HELD) ↔
      p.requestTimestamp ≠ tsInf := by
  induction h with
  | init name t0 => simp [Peer.init, tsInf]
  | @request p d hp ih =>
      by_cases hs : p.state = PeerState.RELEASED
      · rw [requestAccess_released d hs]
        simp [tsInf]
      · rw [requestAccess_not_released d hs]
        exact ih
  | @handle p r t hp ih =>
      rw [handleRequest_fst_state, handleRequest_fst_requestTimestamp]
      exact ih
  | @reply p s b hp ih =>
      rw [receiveReply_state, receiveReply_requestTimestamp]
      exact ih
  | @remove p n hp ih =>
      rw [removeFailedPeer_state, removeFailedPeer_requestTimestamp]
      exact ih
  | @beat p n now hp ih => exact ih
  | @enter p hp hw hq ih =>
      exact ⟨fun _ => ih.mp (Or.inl hw), fun _ => Or.inr rfl⟩
  | @exit p hp hh ih => simp [exitCriticalSection, tsInf]
  | @abort p hp hw hc ih => simp [waiterAbort, tsInf]

/-- Witness for the amended C4 at the reachable state `peerAWanted`. -/
theorem c4_witness :
    (peerAWanted.state = PeerState.WANTED ∨ peerAWanted.state = PeerState.HELD) ↔
      peerAWanted.requestTimestamp ≠ tsInf :=
  c4_state_iff_finite_timestamp reach_peerAWanted

/-- Claim C5 counterexample: processing an inbound REPLY, entering the
critical section and exiting it leave the Lamport clock unchanged in the
code, so the clock does not strictly increase at those events as claimed
(at the reachable state `peerAWanted` with clock 1 the REPLY from PeerB
leaves the clock at 1). -/
theorem c5_counterexample :
    Reach peerAWanted ∧
    (receiveReply peerAWanted "PeerB" true).clock = peerAWanted.clock ∧
    ¬ peerAWanted.clock < (receiveReply peerAWanted "PeerB" true).clock ∧
    (enterCriticalSection peerAQuorum).clock = peerAQuorum.clock ∧
    (exitCriticalSection peerAHeld).1.clock = peerAHeld.clock :=
  ⟨reach_peerAWanted, by decide, by decide, by decide, by decide⟩

/-- Claim C5 (amended): only issuing a REQUEST (`request_access`, with
`received = 0`) and processing an inbound REQUEST (`handle_request`, with
`received` the incoming stamp) update the clock, as
`clock := max(clock, received) + 1`; at those events the clock strictly
increases and ends strictly above the received stamp.  Processing a REPLY,
entering the critical section and exiting it leave the clock unchanged. -/
theorem c5_lamport_clock (p : Peer) (r s : String) (t d : Nat) (b : Bool) :
    (p.state = PeerState.RELEASED →
      (requestAccess p d).2.clock = max p.clock 0 + 1 ∧
      p.clock < (requestAccess p d).2.clock) ∧
    ((handleRequest p r t).1.clock = max p.clock t + 1 ∧
      p.clock < (handleRequest p r t).1.clock ∧
      t < (handleRequest p r t).1.clock) ∧
    (p.state ≠ PeerState.RELEASED → (requestAccess p d).2.clock = p.clock) ∧
    (receiveReply p s b).clock = p.clock ∧
    (enterCriticalSection p).clock = p.clock ∧
    (exitCriticalSection p).1.clock = p.clock := by
  refine ⟨fun h => ?_, ?_, fun h => ?_, receiveReply_clock p s b, rfl, rfl⟩
  · rw [requestAccess_released d h]
    exact ⟨rfl, Nat.lt_succ_of_le (Nat.le_max_left _ _)⟩
  · rw [handleRequest_fst_clock]
    exact ⟨rfl, Nat.lt_succ_of_le (Nat.le_max_left _ _),
      Nat.lt_succ_of_le (Nat.le_max_right _ _)⟩
  · rw [requestAccess_not_released d h]

/-- Witness for the amended C5 at concrete states: the REQUEST issue from
`peerA` bumps the clock from 0 to 1, and a REPLY at `peerAWanted` leaves
it unchanged. -/
theorem c5_witness :
    ((requestAccess peerA 10).2.clock = max peerA.clock 0 + 1 ∧
      peerA.clock < (requestAccess peerA 10).2.clock) ∧
    (receiveReply peerAWanted "PeerB" true).clock = peerAWanted.clock :=
  ⟨(c5_lamport_clock peerA "PeerB" "PeerB" 5 10 true).1 (by decide),
   (c5_lamport_clock peerAWanted "PeerB" "PeerB" 5 10 true).2.2.2.1⟩

/-- Claim C7: after `_exit_critical_section` (from any reachable state) the
peer is RELEASED with `request_timestamp = +∞`, `releasing_access = false`
and an empty deferred queue, and a `permission = true` REPLY is dispatched
to each previously deferred requester, in the queue's order — which the
reachability invariant shows is ascending `(timestamp, name)` order. -/
theorem c7_exit_critical_section {p : Peer} (h : Reach p) :
    (exitCriticalSection p).1.state = PeerState.RELEASED ∧
    (exitCriticalSection p).1.requestTimestamp = tsInf ∧
    (exitCriticalSection p).1.releasingAccess = false ∧
    (exitCriticalSection p).1.deferredRequests = [] ∧
    (exitCriticalSection p).2 = p.deferredRequests.map (fun e => (e.2, true)) ∧
    List.Sorted tupLeP p.deferredRequests :=
  ⟨rfl, rfl, rfl, rfl, rfl, reach_deferred_sorted h⟩

/-- Witness for C7 at the reachable HELD state whose deferred queue holds
[(3, PeerC), (5, PeerB)]: the REPLYs go out to PeerC first, then PeerB. -/
theorem c7_exit_critical_section_witness :
    ((exitCriticalSection peerAHeldDeferred).1.state = PeerState.RELEASED ∧
     (exitCriticalSection peerAHeldDeferred).1.requestTimestamp = tsInf ∧
     (exitCriticalSection peerAHeldDeferred).1.releasingAccess = false ∧
     (exitCriticalSection peerAHeldDeferred).1.deferredRequests = [] ∧
     (exitCriticalSection peerAHeldDeferred).2 =
       peerAHeldDeferred.deferredRequests.map (fun e => (e.2, true)) ∧
     List.Sorted tupLeP peerAHeldDeferred.deferredRequests) ∧
    (exitCriticalSection peerAHeldDeferred).2 = [("PeerC", true), ("PeerB", true)] :=
  ⟨c7_exit_critical_section reach_peerAHeldDeferred, by decide⟩

/-- Claim C8 counterexample: in the reachable state `peerAOverCount` —
PeerA WANTED, PeerB removed by the failure detector (which credits the
counter while shrinking the active set) and genuine REPLYs from PeerC and
PeerD — `reply_count = 4` exceeds `|active_peers| + 1 = 3`, refuting the
claimed invariant `reply_count ∈ [0, |active_peers|+1]`. -/
theorem c8_counterexample :
    Reach peerAOverCount ∧ peerAOverCount.replyCount = 4 ∧
      peerAOverCount.activePeers.card + 1 = 3 ∧
      ¬ peerAOverCount.replyCount ≤ peerAOverCount.activePeers.card + 1 :=
  ⟨reach_peerAOverCount, by decide, by decide, by decide⟩

theorem foldl_receiveReply_true {s : Peer} (L : List String)
    (hs : s.state = PeerState.WANTED) :
    (L.foldl (fun q n => receiveReply q n true) s).replyCount =
        s.replyCount + L.length ∧
      (L.foldl (fun q n => receiveReply q n true) s).activePeers = s.activePeers := by
  induction L generalizing s with
  | nil => simp
  | cons a L ih =>
      have h1 : receiveReply s a true = { s with replyCount := s.replyCount + 1 } := by
        unfold receiveReply
        rw [if_pos ⟨hs, rfl⟩]
      rw [List.foldl_cons, h1]
      obtain ⟨hA, hB⟩ := ih (s := { s with replyCount := s.replyCount + 1 }) hs
      refine ⟨?_, hB⟩
      rw [hA]
      show s.replyCount + 1 + L.length = s.replyCount + (a :: L).length
      rw [List.length_cons]
      omega

/-- Claim C8 (amended): `reply_count` is a natural, hence never negative;
and if after a successful `request_access` the only credits are REPLYs
from pairwise-distinct peers of the active set (no failure-removal while
WANTED, no duplicate deliveries), then `reply_count ≤ |active_peers| + 1`
holds afterwards.  (A failure-removal while WANTED both credits the
counter and shrinks the active set, and does drive the counter above the
bound — see the counterexample.) -/
theorem c8_reply_count_bound (p : Peer) (d : Nat) (L : List String)
    (hrel : p.state = PeerState.RELEASED) (hnd : L.Nodup)
    (hsub : ∀ x ∈ L, x ∈ p.activePeers) :
    (L.foldl (fun q n => receiveReply q n true) (requestAccess p d).2).replyCount
      ≤ (L.foldl (fun q n => receiveReply q n true)
          (requestAccess p d).2).activePeers.card + 1 := by
  have hpost := requestAccess_released d hrel
  have hstate : (requestAccess p d).2.state = PeerState.WANTED := by rw [hpost]
  obtain ⟨hA, hB⟩ := foldl_receiveReply_true L hstate
  rw [hA, hB, hpost]
  have hlen : L.length ≤ p.activePeers.card := by
    have h1 : L.toFinset ⊆ p.activePeers := fun x hx =>
      hsub x (List.mem_toFinset.mp hx)
    calc L.length = L.toFinset.card := (List.toFinset_card_of_nodup hnd).symm
      _ ≤ p.activePeers.card := Finset.card_le_card h1
  simp only
  omega

/-- Witness for the amended C8: from `peerA`, a request followed by
distinct REPLYs from PeerB and PeerC stays within the bound (3 ≤ 4). -/
theorem c8_reply_count_bound_witness :
    (["PeerB", "PeerC"].foldl (fun q n => receiveReply q n true)
        (requestAccess peerA 10).2).replyCount
      ≤ (["PeerB", "PeerC"].foldl (fun q n => receiveReply q n true)
          (requestAccess peerA 10).2).activePeers.card + 1 :=
  c8_reply_count_bound peerA 10 ["PeerB", "PeerC"] (by decide) (by decide)
    (by decide)

/-- Claim C9 counterexample: deferring sends an immediate
`permission = false` REPLY — at the reachable HELD state `peerAHeld`,
REQUEST(PeerB, 5) is deferred and the REPLY (PeerB, false) is dispatched
through `_send_reply` (PeerB being active, the membership filter passes
it), refuting "a REPLY with permission = false is never sent". -/
theorem c9_counterexample :
    Reach peerAHeld ∧
    (handleRequest peerAHeld "PeerB" 5).2 = [("PeerB", false)] ∧
    sendReplyNet peerAHeld (handleRequest peerAHeld "PeerB" 5).2 =
      [("PeerB", false)] :=
  ⟨reach_peerAHeld, by decide, by decide⟩

/-- Claim C9 (amended): every `handle_request` sends exactly one REPLY to
the requester, with `permission = false` exactly when the request is
deferred and `permission = true` otherwise; the deferred-queue flush at
exit sends only `permission = true`; and a `permission = false` REPLY is
ignored by `receive_reply`, so deferral still postpones the effective
grant. -/
theorem c9_reply_permissions (p : Peer) (r s : String) (t : Nat) :
    ((handleRequest p r t).2 = [(r, true)] ∨ (handleRequest p r t).2 = [(r, false)]) ∧
    ((handleRequest p r t).2 = [(r, false)] ↔
      p.state = PeerState.HELD ∨
        (p.state = PeerState.WANTED ∧
          priLt (some t, r) (p.requestTimestamp, p.name) = false)) ∧
    (∀ c ∈ (exitCriticalSection p).2, c.2 = true) ∧
    receiveReply p s false = p := by
  refine ⟨?_, ?_, ?_, ?_⟩
  · rw [handleRequest_eq]
    split
    · exact Or.inl rfl
    · exact Or.inr rfl
  · rw [handleRequest_eq]
    cases hs : p.state with
    | RELEASED =>
        simp
    | HELD =>
        simp
    | WANTED =>
        cases hb : priLt (some t, r) (p.requestTimestamp, p.name) with
        | true => simp
        | false => simp
  · intro c hc
    simp only [exitCriticalSection, List.mem_map] at hc
    obtain ⟨e, _, he⟩ := hc
    rw [← he]
  · unfold receiveReply
    rw [if_neg (fun h => Bool.false_ne_true h.2)]

/-- Witness for the amended C9 at the HELD state `peerAHeld` and requester
PeerB. -/
theorem c9_reply_permissions_witness :
    ((handleRequest peerAHeld "PeerB" 5).2 = [("PeerB", true)] ∨
      (handleRequest peerAHeld "PeerB" 5).2 = [("PeerB", false)]) ∧
    ((handleRequest peerAHeld "PeerB" 5).2 = [("PeerB", false)] ↔
      peerAHeld.state = PeerState.HELD ∨
        (peerAHeld.state = PeerState.WANTED ∧
          priLt (some 5, "PeerB") (peerAHeld.requestTimestamp, peerAHeld.name) = false)) ∧
    (∀ c ∈ (exitCriticalSection peerAHeld).2, c.2 = true) ∧
    receiveReply peerAHeld "PeerC" false = peerAHeld :=
  c9_reply_permissions peerAHeld "PeerB" "PeerC" 5

end RAPeer
